import Mathlib

/-!
# Verification of the waiterbildung crawler and extraction engine

Shallow embedding, in Lean 4, of the parts of the repository that the
specification's testable properties talk about:

* `app/core/utils.py` — `normalize_url`, `get_domain`;
* `app/core/scraper.py` — the `Crawler` class (`should_process_url`,
  `process_url`, the worker loop, `crawl`);
* `app/services/extraction.py` — `DataExtractor`
  (`_create_extraction_rules`, `_get_valid_fallback`, `_validate_selector`,
  `_convert_value`, `_extract_fields`, `extract_data`) and
  `extract_data_from_html`;
* `app/api/institution.py` — the `scrape_institution` endpoint.

Python strings are modelled as Lean `String` (character handling is ASCII
where Python is Unicode-aware; every input appearing in a theorem below is
ASCII, where the two agree).  Python sets are modelled as lists with
membership, dicts that keep insertion order as association lists.
-/

namespace Waiterbildung

/-! ## Python string primitives used by the source -/

/-- `List` version of Python substring containment (`needle in hay`):
does `pat` occur as a prefix of `l`? -/
def listStartsWith : List Char → List Char → Bool
  | [], _ => true
  | _ :: _, [] => false
  | a :: as, b :: bs => a = b && listStartsWith as bs

/-- Does `pat` occur as a contiguous sublist of `l`?  Models Python's
`pat in s` on strings. -/
def listContainsSub (pat : List Char) : List Char → Bool
  | [] => listStartsWith pat []
  | b :: bs => listStartsWith pat (b :: bs) || listContainsSub pat bs

/-- Python `needle in hay` for strings. -/
def strContains (hay needle : String) : Bool :=
  listContainsSub needle.toList hay.toList

/-- Python `s.startswith(pre)`. -/
def strStartsWith (s pre : String) : Bool :=
  listStartsWith pre.toList s.toList

/-- Split a character list at every occurrence of `sep` (Python
`str.split(sep)` for a one-character separator: the result always has
one more part than there are separators, so `""` splits to `[""]`). -/
def splitCharList (sep : Char) : List Char → List (List Char)
  | [] => [[]]
  | c :: rest =>
      let r := splitCharList sep rest
      if c = sep then [] :: r
      else
        match r with
        | h :: t => (c :: h) :: t
        | [] => [[c]]

/-- Python `s.split(sep)` for a one-character separator. -/
def strSplitOn (sep : Char) (s : String) : List String :=
  (splitCharList sep s.toList).map String.mk

/-- Python `str.lower()` restricted to ASCII: every `A`–`Z` is mapped to
`a`–`z`, all other characters kept. -/
def pyLower (s : String) : String :=
  String.mk (s.toList.map Char.toLower)

/-- Drop trailing characters equal to `c` (Python `str.rstrip(c)`,
which removes *every* trailing occurrence, not just one). -/
def rstripChar (c : Char) (s : String) : String :=
  String.mk ((s.toList.reverse.dropWhile (· = c)).reverse)

/-- Python `str.strip()`: remove leading and trailing whitespace. -/
def pyStrip (s : String) : String :=
  String.mk ((s.toList.dropWhile Char.isWhitespace).reverse.dropWhile
    Char.isWhitespace).reverse

/-- The part of the string before the first `#`
(`urllib.parse.urldefrag(url)[0]` for URLs whose fragment carries no
further `#`; the defragmented part is always everything before the first
`#`). -/
def stripFragment (s : String) : String :=
  String.mk (s.toList.takeWhile (· ≠ '#'))

/-! ## `app/core/utils.py` -/

/-- `normalize_url` from `app/core/utils.py`:

```python
def normalize_url(url: str) -> str:
    clean_url, _ = urldefrag(url)
    return clean_url.lower().rstrip("/")
```

Note that `.lower()` is applied to the *whole* defragmented URL and
`.rstrip("/")` removes every trailing slash. -/
def normalize_url (url : String) : String :=
  rstripChar '/' (pyLower (stripFragment url))

/-- `get_domain` from `app/core/utils.py`: `urlparse(url).netloc`.
For an URL of the shape `scheme://netloc/...` the netloc is the maximal
run after the first `://` not containing `/`, `?` or `#`; a string
without `://` has empty netloc (the crawler only ever applies this to
`http://`/`https://` URLs). -/
def get_domain (url : String) : String :=
  let rec go : List Char → List Char
    | ':' :: '/' :: '/' :: rest =>
        rest.takeWhile (fun c => c ≠ '/' && c ≠ '?' && c ≠ '#')
    | _ :: rest => go rest
    | [] => []
  String.mk (go url.toList)

/-! ## `app/core/scraper.py` — the `Crawler` class

`Crawler.__init__` stores `institution_id`, `domain`, the normalized
`start_url`, the course selectors, `max_courses`, a `courses_found`
counter, the `visited_urls` set, the `url_queue` deque (seeded with the
start URL) and the `pending_urls` set.  The fields the control flow
reads are kept here; Python sets are lists with membership. -/

structure Crawler where
  domain : String
  maxCourses : Nat
  coursesFound : Nat
  visitedUrls : List String
  urlQueue : List String
  deriving Repr, DecidableEq

/-- Python `set.add` / `set.update` element step: sets are modelled as
lists without duplicates, so adding is cons-if-absent. -/
def setAdd (s : List String) (x : String) : List String :=
  if x ∈ s then s else x :: s

/-- The extension blocklist literal inside `Crawler.should_process_url`. -/
def blockedExtensions : List String :=
  [".pdf", ".doc", ".docx", ".jpg", ".jpeg", ".png", ".gif",
   ".zip", ".rar", ".csv", ".xlsx", ".ppt", ".pptx"]

/-- `Crawler.should_process_url`:

```python
if not url.startswith(("http://", "https://")): return None
normalized_url = normalize_url(url)
if normalized_url in self.visited_urls: return None
if get_domain(normalized_url) != self.domain: return None
if any(ext in normalized_url for ext in [...]): return None
return normalized_url
```

Note that the extension test is *substring* containment on the whole
normalized URL, not a suffix test on the path. -/
def should_process_url (c : Crawler) (url : String) : Option String :=
  if ¬ (strStartsWith url "http://" || strStartsWith url "https://") then none
  else
    let normalized_url := normalize_url url
    if normalized_url ∈ c.visitedUrls then none
    else if get_domain normalized_url ≠ c.domain then none
    else if blockedExtensions.any (fun ext => strContains normalized_url ext)
      then none
    else some normalized_url

/-- What one `session.get(url, allow_redirects=True)` returns, as seen by
`process_url`: the HTTP status, the redirect-resolved final URL
(`response.url`), whether any of the crawler's `course_selectors`
matches the fetched document (`soup.select(selector)` non-empty for some
selector), and the outgoing links of the document *after* `urljoin`
with the page URL (`urljoin(url, link["href"])` for each
`<a href=...>`). -/
structure FetchResult where
  status : Nat
  finalUrl : String
  hasCourseMatch : Bool
  links : List String
  deriving Repr, DecidableEq

/-- The web, as an oracle: `fetch url = none` models the request raising
(timeout / network error), `some r` a completed response. -/
def FetchOracle := String → Option FetchResult

/-- Observable network events of a run: `.get u` records that a worker
issued the HTTP GET for the dequeued URL `u` (the top of
`session.get(url, ...)`), `.getFinal u` that the redirect chain of that
GET resolved at `u` (`response.url`), `.extract u` that course
extraction ran with source URL `u`. -/
inductive Event where
  | get (url : String)
  | getFinal (url : String)
  | extract (url : String)
  deriving Repr, DecidableEq

/-- The link-discovery loop at the end of `process_url`:

```python
for link in soup.find_all("a", href=True):
    full_url = urljoin(url, link["href"])
    normalized = self.should_process_url(full_url)
    if normalized:
        self.url_queue.append(normalized)
```

`links` are the already-joined absolute URLs of the page (see
`FetchResult.links`).  Each link that passes `should_process_url` is
appended to the queue; note the loop consults `visited_urls` (through
`should_process_url`) but never adds to it, so the same URL appearing
twice on one page — or on two not-yet-processed pages — is enqueued
twice. -/
def enqueue_links (links : List String) (c : Crawler) : Crawler :=
  links.foldl
    (fun acc link =>
      match should_process_url acc link with
      | some normalized =>
          {acc with urlQueue := acc.urlQueue ++ [normalized]}
      | none => acc)
    c

/-- `self.visited_urls.update((url, final_url, normalized_url))`
(three-element set update). -/
def mark_visited (c : Crawler) (url finalUrl normalized : String) : Crawler :=
  {c with visitedUrls :=
    setAdd (setAdd (setAdd c.visitedUrls url) finalUrl) normalized}

/-- The `courses_found += 1` step, guarded by the selector-match-and-cap
test `b`. -/
def bump_courses (c : Crawler) (b : Bool) : Crawler :=
  if b then {c with coursesFound := c.coursesFound + 1} else c

/-- The part of the `process_url` body below the status check, for a 200
response `r` to the GET for `url`: mark `url`, the final URL and its
normalized form visited, run course extraction when a course selector
matched and the cap is not reached, then run the link-discovery loop.
The events are the GET issued for `url`, its redirect resolution, and
the extraction if it ran. -/
def process_response (c : Crawler) (url : String) (r : FetchResult) :
    Crawler × List Event :=
  let normalized_url := normalize_url r.finalUrl
  let c1 := mark_visited c url r.finalUrl normalized_url
  let extracted := r.hasCourseMatch && c1.coursesFound < c1.maxCourses
  let c2 := bump_courses c1 extracted
  let c3 := enqueue_links r.links c2
  ({c3 with visitedUrls := setAdd c3.visitedUrls url},
   [Event.get url, Event.getFinal r.finalUrl]
     ++ if extracted then [Event.extract normalized_url] else [])

/-- `Crawler.process_url`, sequentialised (one worker; the `async with
self.semaphore` block runs the body atomically in that case).  Faithful
control flow:

```python
if self.courses_found >= self.max_courses: return
self.pending_urls.add(url)
try:
    async with session.get(url, allow_redirects=True, ...) as response:
        if response.status != 200: return            # finally: visit url
        final_url = str(response.url)
        normalized_url = normalize_url(final_url)
        self.visited_urls.update({url, final_url, normalized_url})
        ... course selector match → extract_course(...); courses_found += 1
        for link in soup.find_all("a", href=True):
            normalized = self.should_process_url(urljoin(url, link["href"]))
            if normalized: self.url_queue.append(normalized)
except ...: pass                                      # errors contained
finally: self.visited_urls.add(url)
```

There is **no** check of `url ∈ visited_urls` on entry.  The function
returns the updated crawler and the network events it produced;
`extract_course` itself (an LLM call) is outside the model, only the
fact that it ran is recorded. -/
def process_url (fetch : FetchOracle) (c : Crawler) (url : String) :
    Crawler × List Event :=
  if c.maxCourses ≤ c.coursesFound then (c, [])
  else
    match fetch url with
    | none =>
        -- the GET raised; except-branch swallows it, finally-branch
        -- marks the requested URL visited
        ({c with visitedUrls := setAdd c.visitedUrls url}, [.get url])
    | some r =>
        if r.status ≠ 200 then
          ({c with visitedUrls := setAdd c.visitedUrls url}, [.get url])
        else process_response c url r

/-- The worker loop of `Crawler.worker`, sequentialised: while the course
cap is not reached, pop the head of `url_queue` and run `process_url` on
it; stop when the queue is empty (with a single worker `pending_urls` is
empty whenever control is back in the loop, so the backoff branch
terminates the loop).  `fuel` bounds the number of iterations so the
function is total on adversarial link graphs; every theorem below either
quantifies over `fuel` or supplies enough of it. -/
def runCrawl (fetch : FetchOracle) : Crawler → Nat → Crawler × List Event
  | c, 0 => (c, [])
  | c, fuel + 1 =>
    if c.maxCourses ≤ c.coursesFound then (c, [])
    else
      match c.urlQueue with
      | [] => (c, [])
      | url :: rest =>
          let r1 := process_url fetch {c with urlQueue := rest} url
          let r2 := runCrawl fetch r1.1 fuel
          (r2.1, r1.2 ++ r2.2)

/-! ## Status machinery (`app/schemas/institution.py`, `app/models/institution.py`) -/

/-- The `ScraperStatus` enum (`app/schemas/institution.py` /
`app/schemas/scraper.py`, identical definitions). -/
inductive ScraperStatus where
  | not_started
  | queued
  | in_progress
  | completed
  | failed
  | cancelled
  deriving Repr, DecidableEq

/-- The institution record fields that the start-crawl surface reads:
`id`, `domain` and the persisted `scraper_status` column
(`app/models/institution.py`). -/
structure Institution where
  id : String
  domain : String
  scraper_status : ScraperStatus
  deriving Repr, DecidableEq

/-- `Crawler.crawl`:

```python
db = SessionLocal()
try:
    institution = Institution.get(db, id=self.institution_id)
    if institution:
        institution.scraping_status = ScraperStatus.in_progress
        institution.save(db)
    print(...)
    workers = [asyncio.create_task(self.worker(i, db)) for i in range(20)]
    await asyncio.gather(*workers)
    if institution:
        institution.scraping_status = ScraperStatus.completed
        institution.save(db)
except Exception as e:
    logger.exception(...)
    if institution:
        institution.scraping_status = ScraperStatus.failed
        institution.save(db)
finally:
    db.close()
```

`lookup` is the result of `Institution.get` (`none`: no such record).
When the record is missing, the `if institution:` guards skip every
status write and the workers run regardless.  The worker bodies contain
all their per-URL exceptions (`process_url` catches everything and the
`IndexError` of an empty deque is caught in `worker`), and the saves are
modelled as always succeeding, so the `except`-branch of `crawl` is
unreachable in the model; the run returns the list of status values
written (in order), the final crawler state and the event trace. -/
def crawl (lookup : Option Institution) (fetch : FetchOracle)
    (c : Crawler) (fuel : Nat) :
    List ScraperStatus × Crawler × List Event :=
  match lookup with
  | some _ =>
      let (c2, evs) := runCrawl fetch c fuel
      ([ScraperStatus.in_progress, ScraperStatus.completed], c2, evs)
  | none =>
      let (c2, evs) := runCrawl fetch c fuel
      ([], c2, evs)

/-! ## `app/api/institution.py` — the `scrape_institution` endpoint -/

/-- The request body type the endpoint declares:
`app/schemas/institution.py`, `class ScrapeInstitution(BaseRequest)`
with fields `institution_id`, `hero_image_selector`, `course_urls` —
and **no** `start_url` field (`start_url` only exists on the separate
`CrawlInstitution` schema, which the endpoint does not use). -/
structure ScrapeInstitutionReq where
  institution_id : String
  hero_image_selector : Option String
  course_urls : List String
  deriving Repr, DecidableEq

/-- Outcomes of the endpoint: the HTTP error raised, or success. -/
inductive ApiOutcome where
  /-- `HTTPException(404, "Institution not found")`. -/
  | notFound
  /-- `HTTPException(400, "Scraper is currently ... for this institution.")`. -/
  | conflict (current : ScraperStatus)
  /-- `HTTPException(400, "URL domain does not match institution domain.")`. -/
  | domainMismatch
  /-- An uncaught Python `AttributeError` escaping the handler
  (a 500 to the caller): the named attribute does not exist on the
  pydantic request model. -/
  | attributeError (attr : String)
  /-- Request accepted: crawl enqueued, institution saved with the
  returned `scraper_status`. -/
  | accepted (saved : Institution)
  deriving Repr, DecidableEq

/-- `scrape_institution` (`app/api/institution.py` lines 69–96):

```python
institution = Institution.get(db, id=institution_id)
if not institution:
    raise HTTPException(status_code=404, ...)
if institution.scraper_status.value in ["queued", "in_progress"]:
    raise HTTPException(status_code=400, ...)
if get_domain(str(request.start_url)) != institution.domain:
    raise HTTPException(status_code=400, ...)
scraper = Crawler(institution.id, institution.domain, request)
scraper_queue.enqueue(scraper.crawl, timeout=3600)
institution.scraper_status = ScraperStatus.queued
institution.save(db)
return InstitutionResponse(**institution.model_dump())
```

`request` is a `ScrapeInstitution` (see `ScrapeInstitutionReq` above),
which declares no `start_url` field, so on the third line
`request.start_url` raises `AttributeError` on every request that
passes the two preceding checks. -/
def scrape_institution (lookup : Option Institution)
    (_req : ScrapeInstitutionReq) : ApiOutcome :=
  match lookup with
  | none => ApiOutcome.notFound
  | some institution =>
      if institution.scraper_status = ScraperStatus.queued
          || institution.scraper_status = ScraperStatus.in_progress then
        ApiOutcome.conflict institution.scraper_status
      else
        -- `get_domain(str(request.start_url))`: `request` has no
        -- `start_url` attribute, pydantic raises AttributeError
        ApiOutcome.attributeError "start_url"

/-! ## `app/services/extraction.py` — selectors and documents

The source defers CSS-selector syntax checking and element selection to
BeautifulSoup/soupsieve.  The model covers the selector fragment the
extractor is used with: a single compound selector — an optional tag
name followed by any number of `.class` qualifiers (`h1`, `.ects`,
`h1.title`, …).  Anything else (empty string, empty class name, stray
punctuation, combinators) is syntactically invalid in the model, which
on this fragment coincides with soupsieve's verdict. -/

/-- First character of a CSS identifier: a letter or `_`. -/
def isIdentStartChar (c : Char) : Bool := c.isAlpha || c = '_'

/-- Later characters of a CSS identifier. -/
def isIdentChar (c : Char) : Bool := c.isAlphanum || c = '_' || c = '-'

/-- A CSS identifier (tag or class name). -/
def isIdent (s : String) : Bool :=
  match s.toList with
  | [] => false
  | c :: rest => isIdentStartChar c && rest.all isIdentChar

/-- Parsed form of a compound selector: optional tag, class names. -/
structure SimpleSelector where
  tag : Option String
  classes : List String
  deriving Repr, DecidableEq

/-- Parse a compound selector; `none` means the selector is
syntactically invalid (soupsieve would raise). -/
def parseSelector (s : String) : Option SimpleSelector :=
  match strSplitOn '.' s with
  | [] => none
  | first :: classes =>
      if classes.all isIdent then
        if first = "" then
          if classes ≠ [] then some ⟨none, classes⟩ else none
        else
          if isIdent first then some ⟨some first, classes⟩ else none
      else none

/-- `DataExtractor._validate_selector`:

```python
if not selector or not isinstance(selector, str):
    return False
try:
    soup = BeautifulSoup("<html></html>", "lxml")
    soup.select(selector)
    return True
except ValueError:
    return False
```

The falsy pre-check returns `False` for the empty string (and `None`).
For a non-empty selector, `soup.select` either accepts it (`True`) or
raises soupsieve's `SelectorSyntaxError` — which is **not** a
`ValueError` (bs4 ≥ 4.7 delegates selection to soupsieve, whose
`SelectorSyntaxError` derives from `Exception` directly), so the
`except ValueError` never fires and the exception propagates to the
caller.  Hence the result type `Except`: `.ok false` for the falsy
path, `.ok true` for an accepted selector, `.error` for a non-empty
syntactically invalid one. -/
def validate_selector (selector : String) : Except String Bool :=
  if selector = "" then .ok false
  else
    match parseSelector selector with
    | some _ => .ok true
    | none => .error "SelectorSyntaxError"

/-- `DataExtractor._get_valid_fallback`: first fallback selector that
`_validate_selector` answers `True` for, if any; a fallback that makes
`_validate_selector` raise propagates the exception. -/
def get_valid_fallback : List String → Except String (Option String)
  | [] => .ok none
  | selector :: rest =>
      match validate_selector selector with
      | .error e => .error e
      | .ok true => .ok (some selector)
      | .ok false => get_valid_fallback rest

/-- A parsed HTML element: tag name, `class` attribute values, the
element's own text, child elements.  A parsed document is a list of
top-level `HtmlNode`s in document order. -/
inductive HtmlNode where
  | mk (tag : String) (classes : List String) (ownText : String)
       (children : List HtmlNode)
  deriving Repr

def HtmlNode.tag : HtmlNode → String
  | .mk t _ _ _ => t

def HtmlNode.classes : HtmlNode → List String
  | .mk _ cs _ _ => cs

def HtmlNode.children : HtmlNode → List HtmlNode
  | .mk _ _ _ ch => ch

/-- Does a compound selector match an element? -/
def matchesSel (sel : SimpleSelector) (n : HtmlNode) : Bool :=
  (match sel.tag with
   | none => true
   | some t => t = n.tag)
  && sel.classes.all (fun cl => n.classes.contains cl)

mutual
/-- First match of `sel` in the subtree rooted at a node, pre-order,
the node itself included. -/
def selectNodeFirst (sel : SimpleSelector) : HtmlNode → Option HtmlNode
  | .mk t cs tx ch =>
      if matchesSel sel (.mk t cs tx ch) then some (.mk t cs tx ch)
      else selectForestFirst sel ch

/-- First match of `sel` in a forest, pre-order. -/
def selectForestFirst (sel : SimpleSelector) : List HtmlNode → Option HtmlNode
  | [] => none
  | n :: rest =>
      match selectNodeFirst sel n with
      | some m => some m
      | none => selectForestFirst sel rest
end

/-- `root.select_one(selector)` where `root` is the forest being
searched (the whole document for the soup, an element's children for a
nested search root).  An unparsable selector matches nothing; the
extractor only ever selects with selectors it has validated. -/
def select_one (root : List HtmlNode) (selector : String) : Option HtmlNode :=
  match parseSelector selector with
  | none => none
  | some sel => selectForestFirst sel root

mutual
/-- `element.get_text(strip=True)`: concatenation of every text piece of
the subtree, each stripped of surrounding whitespace (the element's own
text first, then the children's, in order). -/
def getTextStrip : HtmlNode → String
  | .mk _ _ tx ch => pyStrip tx ++ getTextStripForest ch

def getTextStripForest : List HtmlNode → String
  | [] => ""
  | n :: rest => getTextStrip n ++ getTextStripForest rest
end

/-! ## `app/services/extraction.py` — typed conversion -/

/-- Extracted values: Python scalars and nested dicts, as produced by
`DataExtractor._extract_fields` (dicts keep insertion order, hence
association lists). -/
inductive Value where
  | str (s : String)
  | int (n : Nat)
  | float (q : ℚ)
  | bool (b : Bool)
  | obj (fields : List (String × Value))
  deriving Repr

/-- The digits of a string, in order (`filter(str.isdigit, value)`;
ASCII digits — every input in the theorems below is ASCII). -/
def digitsOf (s : String) : List Char := s.toList.filter Char.isDigit

/-- Value of a string of decimal digits (`int(s)` for non-empty all-digit
`s`). -/
def natOfDigits (ds : List Char) : Nat :=
  ds.foldl (fun a c => 10 * a + (c.toNat - 48)) 0

/-- `float(s)` for a string `s` containing only digits and `.`:
succeeds on `d*`, `d*.d*` with at least one digit, fails on the empty
string, a bare `.`, and more than one `.`. -/
def pyFloatOfDigitsDots (s : String) : Option ℚ :=
  match strSplitOn '.' s with
  | [a] =>
      if a ≠ "" ∧ (a.toList.all Char.isDigit) then
        some ((natOfDigits a.toList : ℚ))
      else none
  | [a, b] =>
      if (a ≠ "" ∨ b ≠ "") ∧ a.toList.all Char.isDigit
          ∧ b.toList.all Char.isDigit then
        some ((natOfDigits a.toList : ℚ)
          + (natOfDigits b.toList : ℚ) / ((10 : ℚ) ^ b.length))
      else none
  | _ => none

/-- `DataExtractor._convert_value`:

```python
try:
    if data_type == "integer":
        return int("".join(filter(str.isdigit, value)))
    elif data_type == "float":
        return float("".join(filter(lambda x: x.isdigit() or x == ".", value)))
    elif data_type == "boolean":
        return value.lower() in ["true", "yes", "1"]
    return value
except (ValueError, TypeError):
    return None
```

`none` models the caught `ValueError` (`int`/`float` on a string with no
parse). -/
def convert_value (value : String) (data_type : String) : Option Value :=
  if data_type = "integer" then
    let ds := digitsOf value
    if ds.isEmpty then none else some (Value.int (natOfDigits ds))
  else if data_type = "float" then
    (pyFloatOfDigitsDots
      (String.mk (value.toList.filter (fun c => c.isDigit || c = '.')))).map
      Value.float
  else if data_type = "boolean" then
    some (Value.bool (pyLower value = "true" || pyLower value = "yes"
      || pyLower value = "1"))
  else
    some (Value.str value)

/-! ## `app/services/extraction.py` — schema compilation -/

/-- A well-formed field descriptor of the schema (`target_fields` entry
with all required keys present): `name`, `primary_selector`, the
`fallback_selectors` list (`[]` when the key is absent), `data_type`,
and `nested_fields` (`[]` when absent — Python treats `None` and `[]`
the same, by truthiness). -/
inductive FieldDescriptor where
  | mk (name primary_selector : String) (fallback_selectors : List String)
       (data_type : String) (nested_fields : List FieldDescriptor)
  deriving Repr

def FieldDescriptor.name : FieldDescriptor → String
  | .mk n _ _ _ _ => n

/-- The `ExtractionRule` dataclass. -/
inductive ExtractionRule where
  | mk (name primary_selector : String) (fallback_selectors : List String)
       (data_type : String) (nested_fields : Option (List ExtractionRule))
  deriving Repr

def ExtractionRule.name : ExtractionRule → String
  | .mk n _ _ _ _ => n

def ExtractionRule.primary_selector : ExtractionRule → String
  | .mk _ p _ _ _ => p

mutual
/-- `DataExtractor._create_extraction_rules`:

```python
rules = []
count = 0
for field in fields:
    if not self._validate_selector(field["primary_selector"]):
        valid_selector = self._get_valid_fallback(field.get("fallback_selectors", []))
        if not valid_selector:
            count += 1          # ← the dropped field is still counted
            continue
        field["primary_selector"] = valid_selector
    nested_fields = None
    if field.get("nested_fields"):
        nested_fields, nested_count = self._create_extraction_rules(field["nested_fields"])
        count += nested_count
    else:
        count += 1
    rules.append(ExtractionRule(...))
return rules, count
```

Returns `(rules, count)` on completion; `count` becomes
`self.total_fields`.  Two things to note: the `continue` for a field
with no valid selector at all happens *after* `count += 1`, so such a
field is absent from the rules but still counted; and since
`_validate_selector` raises on a non-empty syntactically invalid
selector, that drop branch is only reachable when the primary and all
scanned fallbacks are empty — a non-empty invalid selector instead
aborts the whole compilation with the exception (`.error`), which
escapes `DataExtractor.__init__`. -/
def create_extraction_rules :
    List FieldDescriptor → Except String (List ExtractionRule × Nat)
  | [] => .ok ([], 0)
  | field :: rest =>
      match compile_field field with
      | .error e => .error e
      | .ok hd =>
          match create_extraction_rules rest with
          | .error e => .error e
          | .ok restRes =>
              match hd with
              | (none, c) => .ok (restRes.1, c + restRes.2)
              | (some rule, c) => .ok (rule :: restRes.1, c + restRes.2)

/-- One iteration of the loop body of `_create_extraction_rules`:
the compiled rule for the field (`none` when the field is dropped) and
the field's contribution to `count`, or the exception raised by
selector validation. -/
def compile_field : FieldDescriptor → Except String (Option ExtractionRule × Nat)
  | .mk name primary fallbacks dtype nested =>
      let selected : Except String (Option String) :=
        match validate_selector primary with
        | .error e => .error e
        | .ok true => .ok (some primary)
        | .ok false => get_valid_fallback fallbacks
      match selected with
      | .error e => .error e
      | .ok none => .ok (none, 1)
      | .ok (some primary) =>
          match nested with
          | [] => .ok (some (.mk name primary fallbacks dtype none), 1)
          | nf =>
              match create_extraction_rules nf with
              | .error e => .error e
              | .ok nestedRes =>
                  .ok (some (.mk name primary fallbacks dtype
                        (some nestedRes.1)),
                       nestedRes.2)
end

/-! ## `app/services/extraction.py` — field extraction -/

/-- The fallback loop of `_extract_fields`:

```python
for selector in rule.fallback_selectors:
    if self._validate_selector(selector):
        target = element.select_one(selector)
        if target:
            break
```

First element found by any fallback selector that validates; this loop
re-runs `_validate_selector` at extraction time, so a non-empty
syntactically invalid fallback raises here too (`.error`). -/
def try_fallbacks (root : List HtmlNode) :
    List String → Except String (Option HtmlNode)
  | [] => .ok none
  | selector :: rest =>
      match validate_selector selector with
      | .error e => .error e
      | .ok true =>
          match select_one root selector with
          | some target => .ok (some target)
          | none => try_fallbacks root rest
      | .ok false => try_fallbacks root rest

/-- Target element of one rule in `_extract_fields`: the first element
found by the primary selector, otherwise the first found by the
fallback loop (whose validation may raise). -/
def rule_target (root : List HtmlNode) (primary : String)
    (fallbacks : List String) : Except String (Option HtmlNode) :=
  match select_one root primary with
  | some t => .ok (some t)
  | none => try_fallbacks root fallbacks

mutual
/-- `DataExtractor._extract_fields` over a search root (the parsed
document's top-level forest, or a matched element's children for a
nested rule): returns the extracted data dict (as an ordered
association list) and `extracted_count`; `.error` when the fallback
re-validation raises. -/
def extract_fields (root : List HtmlNode) :
    List ExtractionRule → Except String (List (String × Value) × Nat)
  | [] => .ok ([], 0)
  | rule :: rest =>
      match extract_one_rule root rule with
      | .error e => .error e
      | .ok hd =>
          match extract_fields root rest with
          | .error e => .error e
          | .ok restRes =>
              match hd with
              | none => .ok (restRes.1, restRes.2)
              | some kv => .ok (kv.1 :: restRes.1, kv.2 + restRes.2)

/-- One iteration of the loop body of `_extract_fields`: `.ok none` when
the field stays unmatched (no target found, value conversion failed, or
a nested group extracted nothing), otherwise the `(name, value)` entry
and its contribution to `extracted_count`; `.error` when target lookup
raises. -/
def extract_one_rule (root : List HtmlNode) :
    ExtractionRule → Except String (Option ((String × Value) × Nat))
  | .mk name primary fallbacks dtype nested =>
      match rule_target root primary fallbacks with
      | .error e => .error e
      | .ok none => .ok none
      | .ok (some t) =>
          match nested with
          | some nestedRules =>
              match extract_fields t.children nestedRules with
              | .error e => .error e
              | .ok nestedRes =>
                  -- `if nested_data:` — an empty dict is falsy
                  if nestedRes.1.isEmpty then .ok none
                  else .ok (some ((name, .obj nestedRes.1), nestedRes.2))
          | none =>
              let value := getTextStrip t
              match convert_value value dtype with
              | some converted => .ok (some ((name, converted), 1))
              | none => .ok none
end

/-- `DataExtractor(target_fields).extract_data(...)` as composed by the
callers: `DataExtractor.__init__` runs `_create_extraction_rules` once
(its exception, if any, escapes the constructor); `extract_data` then
runs `_extract_fields` and compares
`total_extracted_fields >= self.total_fields * 0.75`.  For naturals
`e` and `t`, the Python float comparison `e >= t * 0.75` is exact and
equivalent to `3 * t ≤ 4 * e` (`0.75` is a dyadic rational, and
`t * 0.75` is computed exactly for every `t` below `2^51`). -/
def extract_data (target_fields : List FieldDescriptor)
    (doc : List HtmlNode) : Except String (Option (List (String × Value))) :=
  match create_extraction_rules target_fields with
  | .error e => .error e
  | .ok compiled =>
      match extract_fields doc compiled.1 with
      | .error e => .error e
      | .ok res =>
          if 3 * compiled.2 ≤ 4 * res.2 then .ok (some res.1)
          else .ok none

/-! ## `app/services/extraction.py` — the catching wrapper -/

/-- A raw schema entry as passed to `extract_data_from_html`: a dict
whose required keys (`name`, `primary_selector`, `data_type`) may be
missing (`none`).  `fallback_selectors` defaults to `[]` (`dict.get`),
`nested_fields` to absent. -/
inductive FieldDict where
  | mk (name primary_selector : Option String)
       (fallback_selectors : Option (List String))
       (data_type : Option String) (nested_fields : List FieldDict)
  deriving Repr

mutual
/-- Reading a raw schema into well-formed descriptors:
`field["name"]`, `field["primary_selector"]`, `field["data_type"]`
raise `KeyError` when absent.  (In the source the key accesses happen
interleaved with compilation; since any raise aborts the whole
compilation and is caught by the same caller, checking them up front is
observationally the same.) -/
def readFields : List FieldDict → Except String (List FieldDescriptor)
  | [] => .ok []
  | d :: rest => do
      let f ← readField d
      let fs ← readFields rest
      .ok (f :: fs)

/-- Read one raw dict, raising (`.error`) on a missing required key. -/
def readField : FieldDict → Except String FieldDescriptor
  | .mk name primary fallbacks dtype nested => do
      let nf ← readFields nested
      match name, primary, dtype with
      | some n, some p, some t =>
          .ok (.mk n p (fallbacks.getD []) t nf)
      | none, _, _ => .error "KeyError: name"
      | _, none, _ => .error "KeyError: primary_selector"
      | _, _, none => .error "KeyError: data_type"
end

/-- The body of `extract_data_from_html` before exception handling:
build the `DataExtractor` (which compiles the schema, raising on a
malformed entry) and run `extract_data`. -/
def extract_data_from_html_body (target_fields : List FieldDict)
    (doc : List HtmlNode) : Except String (Option (List (String × Value))) :=
  match readFields target_fields with
  | .error e => .error e
  | .ok tf => extract_data tf doc

/-- `extract_data_from_html`:

```python
try:
    extractor = DataExtractor(target_fields)
    return extractor.extract_data(html_content)
except Exception as e:
    logger.error(...)
    return None
```

Any exception from compilation or extraction is caught and turned into
`None`. -/
def extract_data_from_html (target_fields : List FieldDict)
    (doc : List HtmlNode) : Option (List (String × Value)) :=
  match extract_data_from_html_body target_fields doc with
  | .ok result => result
  | .error _ => none

/-! ## The specification's conversion table

Stated separately from `convert_value` (which is translated from the
code) so the two can be compared. -/

/-- The typed-conversion table exactly as the specification words it
for the four documented data types: `string` = trimmed text; `integer`
= parse after stripping all non-digit characters, failure ⇒ unmatched
(`none`); `float` = parse after keeping only digits and `.`, failure ⇒
unmatched; `boolean` = case-insensitive membership in
`{true, yes, 1}`.  The specification says nothing about other type
names, so they map to `none` here and are not compared. -/
def convert_value_spec (value : String) (data_type : String) : Option Value :=
  if data_type = "string" then some (Value.str (pyStrip value))
  else if data_type = "integer" then
    let ds := digitsOf value
    if ds.isEmpty then none else some (Value.int (natOfDigits ds))
  else if data_type = "float" then
    (pyFloatOfDigitsDots
      (String.mk (value.toList.filter (fun c => c.isDigit || c = '.')))).map
      Value.float
  else if data_type = "boolean" then
    some (Value.bool (pyLower value = "true" || pyLower value = "yes"
      || pyLower value = "1"))
  else none

/-! ## Concrete instances used by the theorems -/

/-- The two-field schema of the specification's worked example. -/
def schemaTitleEcts : List FieldDescriptor :=
  [.mk "title" "h1.title" ["h1"] "string" [],
   .mk "ects" ".ects" [] "integer" []]

/-- The rules `schemaTitleEcts` compiles to (both selectors are valid,
so both fields survive). -/
def titleEctsRules : List ExtractionRule :=
  [.mk "title" "h1.title" ["h1"] "string" none,
   .mk "ects" ".ects" [] "integer" none]

/-- The parse of `<h1>Data Science</h1>` (no element with class
`title`, none with class `ects`). -/
def docTitleOnly : List HtmlNode := [.mk "h1" [] "Data Science" []]

/-- The parse of
`<h1 class="title">Data Science</h1><span class="ects">30 ECTS</span>`. -/
def docTitleEcts : List HtmlNode :=
  [.mk "h1" ["title"] "Data Science" [],
   .mk "span" ["ects"] "30 ECTS" []]

/-- A site whose start page links twice to the same course page
`/x` (two `<a>` tags with the same href, or the same link found through
two paths before either copy is fetched). -/
def fetchTwoLinks : FetchOracle := fun url =>
  if url = "https://uni.edu/start" then
    some ⟨200, "https://uni.edu/start", false,
      ["https://uni.edu/x", "https://uni.edu/x"]⟩
  else if url = "https://uni.edu/x" then
    some ⟨200, "https://uni.edu/x", false, []⟩
  else none

/-- A fresh crawler for `uni.edu` seeded with its start URL
(`max_courses = 50`). -/
def crawlerStart : Crawler :=
  ⟨"uni.edu", 50, 0, [], ["https://uni.edu/start"]⟩

/-- A site whose start page replies 200 after redirecting off-domain to
`https://evil.com/page`, which matches a course selector. -/
def fetchRedirect : FetchOracle := fun url =>
  if url = "https://uni.edu/start" then
    some ⟨200, "https://evil.com/page", true, []⟩
  else none

/-- A fresh crawler for `uni.edu`, used with `fetchRedirect`. -/
def crawlerRedirect : Crawler :=
  ⟨"uni.edu", 50, 0, [], ["https://uni.edu/start"]⟩

/-- A one-page site with no outgoing links and no course match. -/
def fetchSinglePage : FetchOracle := fun url =>
  if url = "https://uni.edu/start" then
    some ⟨200, "https://uni.edu/start", false, []⟩
  else none

/-- A fresh crawler for `uni.edu`, used with `fetchSinglePage`. -/
def crawlerSingle : Crawler :=
  ⟨"uni.edu", 50, 0, [], ["https://uni.edu/start"]⟩

/-- A request body for the scrape endpoint (its declared schema has no
start-URL field to populate). -/
def reqNoStartUrl : ScrapeInstitutionReq :=
  ⟨"inst-1", none, ["https://uni.edu/course/1"]⟩

/-! ## Helper lemmas: ASCII lower-casing -/

/-- `Char.ofNat` on a valid codepoint round-trips through `toNat`. -/
theorem char_toNat_ofNat (n : Nat) (h : n.isValidChar) :
    (Char.ofNat n).toNat = n := by
  rw [Char.ofNat, dif_pos h]
  rfl

/-- `Char.toLower` never produces an ASCII uppercase letter. -/
theorem toLower_not_upper (c : Char) :
    ¬(65 ≤ c.toLower.toNat ∧ c.toLower.toNat ≤ 90) := by
  simp only [Char.toLower]
  by_cases h : c.toNat ≥ 65 ∧ c.toNat ≤ 90
  · rw [if_pos h]
    rw [char_toNat_ofNat (c.toNat + 32) (Or.inl (by omega))]
    omega
  · rw [if_neg h]
    omega

/-- `Char.toLower` fixes everything but ASCII uppercase letters. -/
theorem toLower_eq_self (c : Char) (h : ¬(65 ≤ c.toNat ∧ c.toNat ≤ 90)) :
    c.toLower = c := by
  simp only [Char.toLower]
  rw [if_neg (by omega)]

/-- `Char.toLower` is idempotent. -/
theorem toLower_idem (c : Char) : c.toLower.toLower = c.toLower :=
  toLower_eq_self _ (toLower_not_upper c)

/-- Lower-casing cannot introduce a `#`. -/
theorem eq_hash_of_toLower_eq_hash {c : Char} (h : c.toLower = '#') :
    c = '#' := by
  by_cases hu : 65 ≤ c.toNat ∧ c.toNat ≤ 90
  · exfalso
    have h35 : c.toLower.toNat = 35 := by rw [h]; rfl
    simp only [Char.toLower] at h35
    rw [if_pos (by omega)] at h35
    rw [char_toNat_ofNat (c.toNat + 32) (Or.inl (by omega))] at h35
    omega
  · rwa [toLower_eq_self c hu] at h

/-! ## Helper lemmas: the string primitives -/

/-- Characters of `rstripChar c s` come from `s`. -/
theorem mem_of_mem_rstripChar {ch c : Char} {s : String}
    (h : ch ∈ (rstripChar c s).toList) : ch ∈ s.toList := by
  have h1 : ch ∈ s.toList.reverse.dropWhile (· = c) := List.mem_reverse.mp h
  have h2 := (List.dropWhile_sublist (l := s.toList.reverse) (· = c)).subset h1
  exact List.mem_reverse.mp h2

/-- Characters of `pyLower s` are lower-cased characters of `s`. -/
theorem mem_pyLower {ch : Char} {s : String} (h : ch ∈ (pyLower s).toList) :
    ∃ c ∈ s.toList, ch = c.toLower := by
  have h' : ch ∈ s.toList.map Char.toLower := h
  rcases List.mem_map.mp h' with ⟨c, hc, he⟩
  exact ⟨c, hc, he.symm⟩

/-- No character of `stripFragment s` is a `#`. -/
theorem mem_stripFragment_ne_hash {ch : Char} {s : String}
    (h : ch ∈ (stripFragment s).toList) : ch ≠ '#' := by
  have h' : ch ∈ s.toList.takeWhile (fun c => decide (c ≠ '#')) := h
  have := List.mem_takeWhile_imp h'
  simpa using this

/-- `rstripChar c` leaves no trailing `c`. -/
theorem rstripChar_getLast {c : Char} {s : String} :
    (rstripChar c s).toList.getLast? ≠ some c := by
  intro h
  have h1 : (s.toList.reverse.dropWhile (· = c)).reverse.getLast? = some c := h
  rw [List.getLast?_reverse] at h1
  have h2 := List.head?_dropWhile_not (· = c) s.toList.reverse
  rw [h1] at h2
  simp at h2

/-! ## Helper lemmas: selector validation and the crawler invariant -/

/-- Scanning a fallback list made of empty selectors finds nothing
(and raises nothing): `_validate_selector` answers `False` on each. -/
theorem get_valid_fallback_eq_none {fallbacks : List String}
    (hf : ∀ s ∈ fallbacks, s = "") :
    get_valid_fallback fallbacks = Except.ok none := by
  induction fallbacks with
  | nil => rfl
  | cons s ss ih =>
      have hs := hf s (List.mem_cons_self s ss)
      subst hs
      have step : get_valid_fallback ("" :: ss) = get_valid_fallback ss := rfl
      rw [step]
      exact ih fun x hx => hf x (List.mem_cons_of_mem _ hx)

theorem should_process_url_domain {c : Crawler} {url n : String}
    (h : should_process_url c url = some n) : get_domain n = c.domain := by
  simp only [should_process_url] at h
  split_ifs at h with h1 h2 h3 h4
  try simp at h
  push_neg at h3
  rw [← h]
  exact h3

theorem enqueue_links_spec : ∀ (links : List String) (c : Crawler),
    (enqueue_links links c).domain = c.domain
    ∧ (enqueue_links links c).maxCourses = c.maxCourses
    ∧ (∀ u ∈ (enqueue_links links c).urlQueue,
        u ∈ c.urlQueue ∨ get_domain u = c.domain)
  | [], c => ⟨rfl, rfl, fun u hu => Or.inl hu⟩
  | l :: ls, c => by
      have step : enqueue_links (l :: ls) c
          = enqueue_links ls
              (match should_process_url c l with
               | some normalized =>
                   {c with urlQueue := c.urlQueue ++ [normalized]}
               | none => c) := rfl
      rw [step]
      cases hsp : should_process_url c l with
      | none =>
          exact enqueue_links_spec ls c
      | some normalized =>
          obtain ⟨hd, hm, hq⟩ :=
            enqueue_links_spec ls {c with urlQueue := c.urlQueue ++ [normalized]}
          refine ⟨hd, hm, fun u hu => ?_⟩
          rcases hq u hu with hin | hdom
          · rcases List.mem_append.mp hin with hin2 | hin2
            · exact Or.inl hin2
            · have he : u = normalized := by simpa using hin2
              subst he
              exact Or.inr (should_process_url_domain hsp)
          · exact Or.inr hdom

theorem mark_visited_domain (c : Crawler) (u f n : String) :
    (mark_visited c u f n).domain = c.domain := rfl

theorem mark_visited_queue (c : Crawler) (u f n : String) :
    (mark_visited c u f n).urlQueue = c.urlQueue := rfl

theorem bump_courses_domain (c : Crawler) (b : Bool) :
    (bump_courses c b).domain = c.domain := by
  unfold bump_courses
  split_ifs <;> rfl

theorem bump_courses_queue (c : Crawler) (b : Bool) :
    (bump_courses c b).urlQueue = c.urlQueue := by
  unfold bump_courses
  split_ifs <;> rfl

theorem process_response_inv (c : Crawler) (url : String) (r : FetchResult) :
    (process_response c url r).1.domain = c.domain
    ∧ (∀ u ∈ (process_response c url r).1.urlQueue,
        u ∈ c.urlQueue ∨ get_domain u = c.domain)
    ∧ (∀ u, Event.get u ∈ (process_response c url r).2 → u = url) := by
  simp only [process_response]
  obtain ⟨hd, _, hq⟩ :=
    enqueue_links_spec r.links
      (bump_courses (mark_visited c url r.finalUrl (normalize_url r.finalUrl))
        (r.hasCourseMatch
          && decide ((mark_visited c url r.finalUrl
                (normalize_url r.finalUrl)).coursesFound
              < (mark_visited c url r.finalUrl
                (normalize_url r.finalUrl)).maxCourses)))
  refine ⟨?_, fun u hu => ?_, fun u hu => ?_⟩
  · rw [hd, bump_courses_domain, mark_visited_domain]
  · rcases hq u hu with hin | hdom
    · rw [bump_courses_queue, mark_visited_queue] at hin
      exact Or.inl hin
    · rw [bump_courses_domain, mark_visited_domain] at hdom
      exact Or.inr hdom
  · rcases List.mem_append.mp hu with hu2 | hu2
    · simpa using hu2
    · exfalso
      split_ifs at hu2 <;> simp at hu2

theorem process_url_inv (fetch : FetchOracle) (c : Crawler) (url : String) :
    (process_url fetch c url).1.domain = c.domain
    ∧ (∀ u ∈ (process_url fetch c url).1.urlQueue,
        u ∈ c.urlQueue ∨ get_domain u = c.domain)
    ∧ (∀ u, Event.get u ∈ (process_url fetch c url).2 → u = url) := by
  by_cases hmax : c.maxCourses ≤ c.coursesFound
  · have hred : process_url fetch c url = (c, []) := by
      unfold process_url
      rw [if_pos hmax]
    rw [hred]
    exact ⟨rfl, fun u hu => Or.inl hu, fun u hu => by simp at hu⟩
  · cases hf : fetch url with
    | none =>
        have hred : process_url fetch c url
            = ({c with visitedUrls := setAdd c.visitedUrls url},
               [Event.get url]) := by
          unfold process_url
          rw [if_neg hmax, hf]
        rw [hred]
        refine ⟨rfl, fun u hu => Or.inl hu, fun u hu => ?_⟩
        simpa using hu
    | some r =>
        have hred : process_url fetch c url
            = if r.status ≠ 200 then
                ({c with visitedUrls := setAdd c.visitedUrls url},
                 [Event.get url])
              else process_response c url r := by
          unfold process_url
          rw [if_neg hmax, hf]
        rw [hred]
        by_cases hstatus : r.status ≠ 200
        · rw [if_pos hstatus]
          refine ⟨rfl, fun u hu => Or.inl hu, fun u hu => ?_⟩
          simpa using hu
        · rw [if_neg hstatus]
          exact process_response_inv c url r

theorem runCrawl_get_domain (fetch : FetchOracle) :
    ∀ (fuel : Nat) (c : Crawler),
    (∀ u ∈ c.urlQueue, get_domain u = c.domain) →
    ∀ u, Event.get u ∈ (runCrawl fetch c fuel).2 → get_domain u = c.domain
  | 0, c, _, u, hu => by simp [runCrawl] at hu
  | fuel + 1, c, hq, u, hu => by
      by_cases hmax : c.maxCourses ≤ c.coursesFound
      · rw [runCrawl, if_pos hmax] at hu
        simp at hu
      · cases hqe : c.urlQueue with
        | nil =>
            rw [runCrawl, if_neg hmax, hqe] at hu
            simp at hu
        | cons url rest =>
            have hred : runCrawl fetch c (fuel + 1)
                = ((runCrawl fetch
                      (process_url fetch {c with urlQueue := rest} url).1
                      fuel).1,
                   (process_url fetch {c with urlQueue := rest} url).2
                     ++ (runCrawl fetch
                          (process_url fetch {c with urlQueue := rest} url).1
                          fuel).2) := by
              rw [runCrawl, if_neg hmax, hqe]
            rw [hred] at hu
            simp only [List.mem_append] at hu
            obtain ⟨hd1, hq1, he1⟩ :=
              process_url_inv fetch {c with urlQueue := rest} url
            rcases hu with hu1 | hu2
            · rw [he1 u hu1]
              exact hq url (by rw [hqe]; exact List.mem_cons_self url rest)
            · have hrec := runCrawl_get_domain fetch fuel
                (process_url fetch {c with urlQueue := rest} url).1
                (fun v hv => by
                  rcases hq1 v hv with hin | hdom
                  · have hvq : v ∈ c.urlQueue := by
                      rw [hqe]
                      exact List.mem_cons_of_mem url hin
                    rw [hd1]
                    exact hq v hvq
                  · rw [hd1]
                    exact hdom)
                u hu2
              rw [hd1] at hrec
              exact hrec

/-! ## The claims -/

/-- C2: with the worked-example schema (2 leaf fields, so
`total_fields = 2`) and the 0.75 threshold, `extract_data` returns
`none` on the document where only 1 of the 2 fields extracts
(`<h1>Data Science</h1>`, matched through the `h1` fallback, no
`.ects`), and returns the assembled record
`{"title": "Data Science", "ects": 30}` on the document where both
extract. -/
theorem C2_threshold_gating :
    create_extraction_rules schemaTitleEcts = Except.ok (titleEctsRules, 2)
    ∧ extract_fields docTitleOnly titleEctsRules
        = Except.ok ([("title", Value.str "Data Science")], 1)
    ∧ extract_data schemaTitleEcts docTitleOnly = Except.ok none
    ∧ extract_fields docTitleEcts titleEctsRules
        = Except.ok
            ([("title", Value.str "Data Science"), ("ects", Value.int 30)], 2)
    ∧ extract_data schemaTitleEcts docTitleEcts
        = Except.ok
            (some [("title", Value.str "Data Science"),
                   ("ects", Value.int 30)]) :=
  ⟨rfl, rfl, rfl, rfl, rfl⟩

/-- C3 counterexample: for a field whose primary selector (`???`) and
only fallback (`?!`) are syntactically invalid (and non-empty), the
claim's drop-and-exclude behaviour does not happen at all — already the
validation of `???` raises `SelectorSyntaxError` (not a `ValueError`,
so `except ValueError` misses it) and compilation aborts with the
exception instead of producing rules with the field omitted; under the
`extract_data_from_html` wrapper the whole extraction returns `None`. -/
theorem C3_counterexample :
    create_extraction_rules
        [.mk "broken" "???" ["?!"] "string" [],
         .mk "title" "h1" [] "string" []]
      = Except.error "SelectorSyntaxError"
    ∧ extract_data_from_html
        [FieldDict.mk (some "broken") (some "???") (some ["?!"])
           (some "string") [],
         FieldDict.mk (some "title") (some "h1") (some []) (some "string") []]
        docTitleEcts
      = none :=
  ⟨rfl, rfl⟩

/-- C3 amended: the drop branch of `_create_extraction_rules` is only
reachable when the primary selector and every fallback are *empty*
(the falsy check in `_validate_selector`); such a field is omitted from
the compiled rules but still adds 1 to `total_fields` (the `count += 1`
before the `continue`), so it *does* enter the denominator of the
match-ratio threshold.  A *non-empty* syntactically invalid primary
selector instead makes `_validate_selector` raise
`SelectorSyntaxError` (uncaught by the `except ValueError`), aborting
the whole compilation. -/
theorem C3_amended :
    (∀ (name : String) (fallbacks : List String) (dtype : String)
        (nested rest : List FieldDescriptor),
      (∀ s ∈ fallbacks, s = "") →
      create_extraction_rules
          (FieldDescriptor.mk name "" fallbacks dtype nested :: rest)
        = (create_extraction_rules rest).map (fun p => (p.1, 1 + p.2)))
    ∧ (∀ (name primary : String) (fallbacks : List String) (dtype : String)
        (nested rest : List FieldDescriptor),
      primary ≠ "" → parseSelector primary = none →
      create_extraction_rules
          (FieldDescriptor.mk name primary fallbacks dtype nested :: rest)
        = Except.error "SelectorSyntaxError") := by
  constructor
  · intro name fallbacks dtype nested rest hf
    have hgf := get_valid_fallback_eq_none hf
    have hcf : compile_field
        (FieldDescriptor.mk name "" fallbacks dtype nested)
        = Except.ok (none, 1) := by
      unfold compile_field
      rw [show validate_selector "" = Except.ok false from rfl, hgf]
    conv_lhs => rw [create_extraction_rules]
    rw [hcf]
    cases hrest : create_extraction_rules rest <;> rfl
  · intro name primary fallbacks dtype nested rest hne hparse
    have hv : validate_selector primary = Except.error "SelectorSyntaxError" := by
      unfold validate_selector
      rw [if_neg hne, hparse]
    have hcf : compile_field
        (FieldDescriptor.mk name primary fallbacks dtype nested)
        = Except.error "SelectorSyntaxError" := by
      unfold compile_field
      rw [hv]
    conv_lhs => rw [create_extraction_rules]
    rw [hcf]

/-- C3 witness: the amended theorem's drop conjunct applied to a field
whose primary and only fallback are empty strings, and its raise
conjunct applied to the non-empty invalid selector `???`. -/
theorem C3_witness :
    ((∀ s ∈ [""], s = "")
      ∧ create_extraction_rules
          [FieldDescriptor.mk "broken2" "" [""] "integer" []]
        = (create_extraction_rules ([] : List FieldDescriptor)).map
            (fun p => (p.1, 1 + p.2)))
    ∧ ("???" ≠ ""
      ∧ parseSelector "???" = none
      ∧ create_extraction_rules
          [FieldDescriptor.mk "broken3" "???" [] "string" []]
        = Except.error "SelectorSyntaxError") :=
  ⟨⟨by decide, C3_amended.1 "broken2" [""] "integer" [] [] (by decide)⟩,
   ⟨by decide, by decide,
    C3_amended.2 "broken3" "???" [] "string" [] [] (by decide) (by decide)⟩⟩

/-- Unmatched leaf fields contribute nothing. -/
theorem extract_fields_skip_of_convert_none (root : List HtmlNode)
    (name primary : String) (fallbacks : List String) (dtype : String)
    (rest : List ExtractionRule) (t : HtmlNode)
    (ht : rule_target root primary fallbacks = Except.ok (some t))
    (hc : convert_value (getTextStrip t) dtype = none) :
    extract_fields root
        (ExtractionRule.mk name primary fallbacks dtype none :: rest)
      = extract_fields root rest := by
  have hone : extract_one_rule root
      (ExtractionRule.mk name primary fallbacks dtype none)
      = Except.ok none := by
    unfold extract_one_rule
    rw [ht]
    simp [hc]
  conv_lhs => rw [extract_fields]
  rw [hone]
  cases hrest : extract_fields root rest <;> rfl

/-- C7: on already-stripped extracted text (which is what
`get_text(strip=True)` hands to `_convert_value`), `convert_value`
agrees with the specification's conversion table for the four data
types (`string` = trimmed text, `integer` = parse of the digits with
failure unmatched, `float` = parse of the digits-and-dots with failure
unmatched, `boolean` = case-insensitive membership in
`{true, yes, 1}`); a leaf field whose conversion fails is absent from
the record and not counted; and converting `"30 ECTS"` as integer
yields 30. -/
theorem C7_typed_conversion :
    (∀ v : String, pyStrip v = v →
      ∀ t ∈ ["string", "integer", "float", "boolean"],
        convert_value v t = convert_value_spec v t)
    ∧ (∀ (root : List HtmlNode) (name primary : String)
        (fallbacks : List String) (dtype : String)
        (rest : List ExtractionRule) (t : HtmlNode),
        rule_target root primary fallbacks = Except.ok (some t) →
        convert_value (getTextStrip t) dtype = none →
        extract_fields root
            (ExtractionRule.mk name primary fallbacks dtype none :: rest)
          = extract_fields root rest)
    ∧ convert_value "30 ECTS" "integer" = some (Value.int 30) := by
  refine ⟨?_, extract_fields_skip_of_convert_none, rfl⟩
  intro v hv t ht
  fin_cases ht
  · simp only [convert_value, convert_value_spec, hv]
    rfl
  · rfl
  · rfl
  · rfl

/-- C7 witness: the conversion agreement applied at `"30 ECTS"` /
`integer`, and the unmatched-propagation conjunct applied to an
`integer` field over a document whose matched element has no digits. -/
theorem C7_witness :
    (pyStrip "30 ECTS" = "30 ECTS"
      ∧ convert_value "30 ECTS" "integer"
          = convert_value_spec "30 ECTS" "integer")
    ∧ (rule_target [HtmlNode.mk "div" [] "no digits here" []] "div" []
          = Except.ok (some (HtmlNode.mk "div" [] "no digits here" []))
        ∧ convert_value
            (getTextStrip (HtmlNode.mk "div" [] "no digits here" []))
            "integer" = none
        ∧ extract_fields [HtmlNode.mk "div" [] "no digits here" []]
            [ExtractionRule.mk "ects" "div" [] "integer" none]
          = extract_fields [HtmlNode.mk "div" [] "no digits here" []] []) :=
  ⟨⟨by decide,
    C7_typed_conversion.1 "30 ECTS" (by decide) "integer" (by decide)⟩,
   ⟨by rfl, by rfl,
    C7_typed_conversion.2.1 [HtmlNode.mk "div" [] "no digits here" []]
      "ects" "div" [] "integer" []
      (HtmlNode.mk "div" [] "no digits here" []) (by rfl) (by rfl)⟩⟩

/-- C9: whenever the normalized form of a URL contains any blocked
extension string as a substring — anywhere, not only as a path suffix —
`should_process_url` returns `none`, so the link is never enqueued. -/
theorem C9_substring_extension_filter (c : Crawler) (url : String)
    (h : (blockedExtensions.any fun ext =>
        strContains (normalize_url url) ext) = true) :
    should_process_url c url = none := by
  simp only [should_process_url]
  split_ifs with h1 h2 h3 <;> rfl

/-- C9 witness: `.pdf` occurring mid-path (in
`/brochure.pdf-download/view`, whose path does not end in `.pdf`)
makes `should_process_url` reject the URL. -/
theorem C9_witness :
    ((blockedExtensions.any fun ext =>
        strContains
          (normalize_url "https://uni.edu/brochure.pdf-download/view") ext)
      = true)
    ∧ should_process_url ⟨"uni.edu", 50, 0, [], []⟩
        "https://uni.edu/brochure.pdf-download/view" = none :=
  ⟨by decide, C9_substring_extension_filter _ _ (by decide)⟩

/-- C10: `extract_data_from_html` never propagates an exception: when
the un-caught body succeeds with `v`, the wrapper returns `v` (a record
or `none`), and when the body raises (e.g. a `KeyError` from a schema
entry missing a required key), the wrapper catches it and returns
`none`. -/
theorem C10_extraction_never_raises (target_fields : List FieldDict)
    (doc : List HtmlNode) :
    (∃ v, extract_data_from_html_body target_fields doc = Except.ok v
        ∧ extract_data_from_html target_fields doc = v)
    ∨ (∃ e, extract_data_from_html_body target_fields doc = Except.error e
        ∧ extract_data_from_html target_fields doc = none) := by
  unfold extract_data_from_html
  cases h : extract_data_from_html_body target_fields doc with
  | ok v => exact Or.inl ⟨v, rfl, rfl⟩
  | error e => exact Or.inr ⟨e, rfl, rfl⟩

/-- C8 counterexample: `normalize_url` lower-cases the *path* too —
`"https://example.com/About"` normalizes to
`"https://example.com/about"`, not to the claim's
`"https://example.com/About"` (host already lower-case, path case
supposedly untouched). -/
theorem C8_counterexample :
    normalize_url "https://example.com/About" = "https://example.com/about"
    ∧ "https://example.com/about" ≠ "https://example.com/About" :=
  ⟨rfl, by decide⟩

/-- C8 amended: `normalize_url` strips the fragment, lower-cases the
*entire* defragmented URL (host, path and query alike), and strips
every trailing slash; consequently its output contains no `#`, does
not end in `/`, and every character is lower-case-fixed. -/
theorem C8_amended (url : String) :
    normalize_url url = rstripChar '/' (pyLower (stripFragment url))
    ∧ '#' ∉ (normalize_url url).toList
    ∧ (normalize_url url).toList.getLast? ≠ some '/'
    ∧ ∀ ch ∈ (normalize_url url).toList, ch.toLower = ch := by
  refine ⟨rfl, ?_, rstripChar_getLast, ?_⟩
  · intro hmem
    have h1 := mem_of_mem_rstripChar hmem
    rcases mem_pyLower h1 with ⟨c, hc, he⟩
    exact mem_stripFragment_ne_hash hc (eq_hash_of_toLower_eq_hash he.symm)
  · intro ch hmem
    have h1 := mem_of_mem_rstripChar hmem
    rcases mem_pyLower h1 with ⟨c, hc, he⟩
    rw [he]
    exact toLower_idem c

/-- C8 witness: the lower-case-fixed property of the amended theorem
applied to the character `b` of a concrete normalized URL. -/
theorem C8_witness :
    ('b' ∈ (normalize_url "https://Example.com/AbOut/#frag").toList)
    ∧ Char.toLower 'b' = 'b' :=
  ⟨by decide,
   (C8_amended "https://Example.com/AbOut/#frag").2.2.2 'b' (by decide)⟩

/-- C5: `scrape_institution` does reject exactly the `queued` /
`in_progress` states with a 400 conflict (and a missing institution
with 404), but on every state that the claim says must be *accepted*
(`completed`, `not_started`, `failed`, …) it instead raises
`AttributeError`: the declared request schema `ScrapeInstitution` has
no `start_url` field (only `CrawlInstitution` does), so
`request.start_url` fails before the crawl can be enqueued or the
status set to `queued`. -/
theorem C5_wrong_request_schema :
    scrape_institution (some ⟨"inst-1", "uni.edu", ScraperStatus.completed⟩)
        reqNoStartUrl = ApiOutcome.attributeError "start_url"
    ∧ scrape_institution
        (some ⟨"inst-1", "uni.edu", ScraperStatus.not_started⟩)
        reqNoStartUrl = ApiOutcome.attributeError "start_url"
    ∧ scrape_institution (some ⟨"inst-1", "uni.edu", ScraperStatus.failed⟩)
        reqNoStartUrl = ApiOutcome.attributeError "start_url"
    ∧ scrape_institution (some ⟨"inst-1", "uni.edu", ScraperStatus.queued⟩)
        reqNoStartUrl = ApiOutcome.conflict ScraperStatus.queued
    ∧ scrape_institution
        (some ⟨"inst-1", "uni.edu", ScraperStatus.in_progress⟩)
        reqNoStartUrl = ApiOutcome.conflict ScraperStatus.in_progress
    ∧ scrape_institution none reqNoStartUrl = ApiOutcome.notFound :=
  ⟨rfl, rfl, rfl, rfl, rfl, rfl⟩

/-- C6 amended: `Crawler.crawl` never writes `failed` whatever the
institution lookup and the per-URL fetch outcomes are (per-URL errors
are all contained inside `process_url`), and when the institution
record cannot be loaded the run proceeds with *no* status write at all
— it neither aborts nor marks anything failed. -/
theorem C6_amended :
    (∀ (lookup : Option Institution) (fetch : FetchOracle) (c : Crawler)
        (fuel : Nat),
      ScraperStatus.failed ∉ (crawl lookup fetch c fuel).1)
    ∧ (∀ (fetch : FetchOracle) (c : Crawler) (fuel : Nat),
      (crawl none fetch c fuel).1 = []) := by
  constructor
  · intro lookup fetch c fuel
    cases lookup <;> simp [crawl]
  · intro fetch c fuel
    simp [crawl]

/-- C6 counterexample: with the institution lookup returning nothing,
the run performs no status write (in particular none of `failed`), yet
still fetches the start URL — the run is not aborted, contradicting the
claim that it aborts with status `failed`. -/
theorem C6_counterexample :
    (crawl none fetchSinglePage crawlerSingle 5).1 = []
    ∧ Event.get "https://uni.edu/start"
        ∈ (crawl none fetchSinglePage crawlerSingle 5).2.2
    ∧ ScraperStatus.failed ∉ (crawl none fetchSinglePage crawlerSingle 5).1 := by
  refine ⟨rfl, by decide, by decide⟩

/-- C1: exactly-once visitation is violated — on a site whose start
page links twice to the same (already normalized) URL
`https://uni.edu/x`, a single sequential worker issues the HTTP GET for
that URL twice: both copies are enqueued (the link loop checks
`visited_urls` but fetching-time dedup does not exist, as
`process_url` never re-checks `visited_urls` for its dequeued URL). -/
theorem C1_double_fetch :
    normalize_url "https://uni.edu/x" = "https://uni.edu/x"
    ∧ (runCrawl fetchTwoLinks crawlerStart 10).2.count
        (Event.get "https://uni.edu/x") = 2 := by
  refine ⟨rfl, by decide⟩

/-- C4 counterexample: a start page on the job's domain redirects to
`https://evil.com/page`; the GET is issued, its redirect-resolved final
URL lies on a foreign domain, and the crawler even extracts the page as
a course and records the foreign URL as visited — the claim's clause
about redirect-resolved URLs does not hold. -/
theorem C4_counterexample :
    crawlerRedirect.domain = "uni.edu"
    ∧ Event.get "https://uni.edu/start"
        ∈ (runCrawl fetchRedirect crawlerRedirect 5).2
    ∧ Event.getFinal "https://evil.com/page"
        ∈ (runCrawl fetchRedirect crawlerRedirect 5).2
    ∧ get_domain "https://evil.com/page" ≠ "uni.edu"
    ∧ Event.extract (normalize_url "https://evil.com/page")
        ∈ (runCrawl fetchRedirect crawlerRedirect 5).2
    ∧ "https://evil.com/page"
        ∈ (runCrawl fetchRedirect crawlerRedirect 5).1.visitedUrls := by
  refine ⟨rfl, by decide, by decide, by decide, by decide, by decide⟩

/-- C4 amended: provided every queued URL is on the job's domain (as
the enqueue-time check of `should_process_url` and the API-level check
of the start URL arrange), every URL a worker *issues a GET for* has
`get_domain` equal to the crawler's domain; redirect-resolved final
URLs are not constrained. -/
theorem C4_amended (fetch : FetchOracle) (c : Crawler) (fuel : Nat)
    (hq : ∀ u ∈ c.urlQueue, get_domain u = c.domain) :
    ∀ u, Event.get u ∈ (runCrawl fetch c fuel).2 →
      get_domain u = c.domain :=
  runCrawl_get_domain fetch fuel c hq

/-- C4 witness: the amended theorem applied to the concrete
redirecting site — the one GET issued is for the on-domain start
URL. -/
theorem C4_witness :
    (∀ u ∈ crawlerRedirect.urlQueue, get_domain u = crawlerRedirect.domain)
    ∧ Event.get "https://uni.edu/start"
        ∈ (runCrawl fetchRedirect crawlerRedirect 5).2
    ∧ get_domain "https://uni.edu/start" = crawlerRedirect.domain :=
  ⟨by decide, by decide,
   C4_amended fetchRedirect crawlerRedirect 5 (by decide)
     "https://uni.edu/start" (by decide)⟩

end Waiterbildung
